import Mathlib

/- Verification development for the climate-to-yield feature pipeline.
   The Python source is shallowly embedded: a pandas DataFrame of daily
   climate records becomes a list of records, column selections become
   projections, sort_values becomes a stable insertion sort on the same
   key, groupby aggregations become key-indexed counts and sums over the
   list, and left merges become lookups returning Option values. -/

set_option maxRecDepth 8000

namespace Pipeline

/- ------------------------------------------------------------------ -/
/- Generic helpers                                                     -/
/- ------------------------------------------------------------------ -/

/-- Lexicographic strict comparison of strings by code point, the order
pandas uses when sorting a string column. Written over the character
lists so that it evaluates by kernel reduction. -/
def strLtB (a b : String) : Bool := go a.data b.data
where
  go : List Char → List Char → Bool
    | [], [] => false
    | [], _ :: _ => true
    | _ :: _, [] => false
    | c :: cs, d :: ds =>
      if c.val.toNat < d.val.toNat then true
      else if d.val.toNat < c.val.toNat then false
      else go cs ds

/-- First-occurrence deduplication, mirroring pandas drop_duplicates
(which keeps the first row of each duplicate group) and the key set of a
groupby. -/
def dedupF {α : Type} [DecidableEq α] : List α → List α
  | [] => []
  | a :: l => a :: (dedupF l).filter (fun b => decide (b ≠ a))

/-- Stable insertion of an element into a list relative to a decidable
relation; used to model sort_values. -/
def insertLe {α : Type} (le : α → α → Prop) [DecidableRel le] (a : α) : List α → List α
  | [] => [a]
  | b :: l => if le a b then a :: b :: l else b :: insertLe le a l

/-- Stable insertion sort relative to a decidable relation; models
sort_values with a lexicographic key. -/
def sortLe {α : Type} (le : α → α → Prop) [DecidableRel le] : List α → List α
  | [] => []
  | a :: l => insertLe le a (sortLe le l)

/- ------------------------------------------------------------------ -/
/- Data model: the silver climate table                                -/
/- ------------------------------------------------------------------ -/

/-- Model of a pandas timestamp as the code observes it: a chronological
day index (what sorting by the time column uses; consecutive calendar
days differ by one) together with the calendar month that dt.month
extracts. -/
structure Timestamp where
  day : Nat
  month : Nat
deriving DecidableEq

/-- One row of the silver daily climate table: scenario, department name,
year column, timestamp, and the three wide metric columns produced by the
bronze pivot. -/
structure Rec where
  scen : String
  dep : String
  year : Int
  time : Timestamp
  temp_mean : Rat
  temp_max : Rat
  precip : Rat
deriving DecidableEq

/-- Constant DRY_DAY_PRECIP_THRESHOLD_MM from constants.py. -/
def DRY_DAY_PRECIP_THRESHOLD_MM : Rat := mkRat 1 10

/-- Constant MIN_DRY_SPELL_DAYS from constants.py. -/
def MIN_DRY_SPELL_DAYS : Nat := 7

/-- Constant FREEZE_THRESHOLD_KELVIN from constants.py. -/
def FREEZE_THRESHOLD_KELVIN : Rat := mkRat 27315 100

/-- Constant HEAT_THRESHOLD_KELVIN from constants.py. -/
def HEAT_THRESHOLD_KELVIN : Rat := mkRat 30315 100

/-- Constant HEAVY_RAIN_THRESHOLD_MM from constants.py. -/
def HEAVY_RAIN_THRESHOLD_MM : Rat := 20

/-- Constant WINTER_START_MONTH from constants.py. -/
def WINTER_START_MONTH : Nat := 9

/-- Constant WINTER_MONTHS from constants.py. -/
def WINTER_MONTHS : List Nat := [9, 10, 11, 12, 1, 2]

/-- Constant VALIDATION_THRESHOLD_YEAR from constants.py. -/
def VALIDATION_THRESHOLD_YEAR : Int := 2013

/-- Constant SCENARIO_HISTORICAL from the bronze column-name constants. -/
def SCENARIO_HISTORICAL : String := "historical"

/- ------------------------------------------------------------------ -/
/- dry_periods (silver_to_gold.py)                                     -/
/- ------------------------------------------------------------------ -/

/-- The is_dry flag of a record: precipitation strictly below the dry-day
threshold. -/
def isDryR (r : Rec) : Bool := decide (r.precip < DRY_DAY_PRECIP_THRESHOLD_MM)

/-- Lexicographic order on (department, time) used by
sort_values([SILVER_NOM_DEP, SILVER_TIME]). -/
def recLe (a b : Rec) : Prop :=
  strLtB a.dep b.dep = true ∨ (a.dep = b.dep ∧ a.time.day ≤ b.time.day)

instance : DecidableRel recLe := fun a b =>
  inferInstanceAs (Decidable (strLtB a.dep b.dep = true ∨ (a.dep = b.dep ∧ a.time.day ≤ b.time.day)))

/-- The dataframe sorted by department then time. -/
def sortClimate (l : List Rec) : List Rec := sortLe recLe l

/-- The dry_group column: walking the department-sorted frame, a new
group id is opened exactly when is_dry differs from the
groupby(department).shift() value of the previous row, that is at the
first row of each department (where shift gives NaN, which compares
unequal) and wherever is_dry changes within a department; the id is the
running cumulative sum of these change flags. This function is one step
of that cumulative sum: prev holds the department and is_dry flag of the
previous row of the sorted frame, if any. -/
def tagStep (r : Rec) (g : Nat) (prev : Option (String × Bool)) : Nat :=
  let isNew : Bool :=
    match prev with
    | none => true
    | some (d0, b0) => if r.dep = d0 then isDryR r != b0 else true
  if isNew then g + 1 else g

/-- Tagged walk of the sorted frame: each row is paired with the group id
computed by tagStep, and the recursion carries the state that
groupby(department).shift() exposes to the next row. -/
def tagGroups : List Rec → Nat → Option (String × Bool) → List (Rec × Nat)
  | [], _, _ => []
  | r :: rs, g, prev =>
    (r, tagStep r g prev) :: tagGroups rs (tagStep r g prev) (some (r.dep, isDryR r))

/-- Sizes of the groups of a tagged row list, one entry per distinct group
id in order of first occurrence: the groupby(...).size() step applied to
an already key-filtered selection. -/
def gidLens (l : List (Rec × Nat)) : List Nat :=
  (dedupF (l.map (fun q => q.2))).map (fun g => l.countP (fun q => q.2 == g))

/-- Tail of a gidLens computation relative to one group id: the sizes of
the groups other than g; proof device for reasoning about gidLens one
group at a time. -/
def gidTail (g : Nat) (M : List (Rec × Nat)) : List Nat :=
  ((dedupF (M.map (fun q => q.2))).filter (fun b => decide (b ≠ g))).map
    (fun h => M.countP (fun q => q.2 == h))

/-- Selection of the dry rows carrying one (department, year) key among
the tagged rows. -/
def dryKeyPred (d : String) (y : Int) : Rec × Nat → Bool :=
  fun q => isDryR q.1 && q.1.dep == d && q.1.year == y

/-- Run lengths recorded for one (department, year) key: the sizes of the
(department, year, dry_group) groups of the is_dry-filtered sorted frame
that carry this key. -/
def dryTaggedRuns (climate : List Rec) (d : String) (y : Int) : List Nat :=
  gidLens ((tagGroups (sortClimate climate) 0 none).filter (dryKeyPred d y))

/-- One output row of the dry_periods extractor. -/
structure DryRow where
  dep : String
  year : Int
  dry_periods_count : Nat
  max_dry_spell_days : Nat
deriving DecidableEq

/-- The distinct (department, year) pairs of a climate slice, in order of
first appearance: the all_dept_years base of the final left merge. -/
def deptYearPairs (climate : List Rec) : List (String × Int) :=
  dedupF (climate.map (fun r => (r.dep, r.year)))

/-- The dry_periods extractor: one row per distinct (department, year)
pair; dry_periods_count counts the runs of length at least the threshold
and max_dry_spell_days is the largest run length, both aggregates of the
per-key run-length list, with the fillna(0) of the left merge reflected
by the aggregates of an empty run list being 0. -/
def dry_periods (climate : List Rec) (threshold : Nat) : List DryRow :=
  (deptYearPairs climate).map (fun k =>
    { dep := k.1, year := k.2,
      dry_periods_count := (dryTaggedRuns climate k.1 k.2).countP (fun n => threshold ≤ n),
      max_dry_spell_days := (dryTaggedRuns climate k.1 k.2).foldr max 0 })

/- ------------------------------------------------------------------ -/
/- Specification-side definition of dry runs                           -/
/- ------------------------------------------------------------------ -/

/-- Dryness of a bare precipitation value. -/
def isDryP (p : Rat) : Bool := decide (p < DRY_DAY_PRECIP_THRESHOLD_MM)

/-- Whether a timestamp list walks consecutive calendar days: each day
index is the successor of the previous one. -/
def consecDays : List Timestamp → Bool
  | [] => true
  | [_] => true
  | a :: b :: t => (b.day == a.day + 1) && consecDays (b :: t)

/-- Lengths of the maximal blocks of consecutive dry values in a
precipitation series, in order; written from the words of the
specification (a dry spell is a maximal consecutive sequence of dry days
in one department-sorted series). -/
def dryRunLengths : List Rat → List Nat
  | [] => []
  | [p] => if isDryP p then [1] else []
  | p :: q :: l =>
    if isDryP p then
      if isDryP q then
        match dryRunLengths (q :: l) with
        | [] => [1]
        | k :: ks => (k + 1) :: ks
      else 1 :: dryRunLengths l
    else dryRunLengths (q :: l)

/-- Group ids that the tagged walk assigns to the dry rows of a
single-department segment, as a function of the walk state: prevDry
records whether the previous row of the same department was dry and g is
the current cumulative group id. Bridging device between tagGroups and
dryRunLengths. -/
def attachGid (prevDry : Bool) (g : Nat) : List Rec → List (Rec × Nat)
  | [] => []
  | r :: rs =>
    if isDryR r then
      if prevDry then (r, g) :: attachGid true g rs
      else (r, g + 1) :: attachGid true (g + 1) rs
    else
      if prevDry then attachGid false (g + 1) rs
      else attachGid false g rs

/- ------------------------------------------------------------------ -/
/- extreme_temperatures_and_rain (silver_to_gold.py)                   -/
/- ------------------------------------------------------------------ -/

/-- One output row of the extreme-day counter. -/
structure ExtRow where
  dep : String
  year : Int
  freeze_days_count : Nat
  heat_days_count : Nat
  heavy_rain_days_count : Nat
deriving DecidableEq

/-- The extreme-day counter: per (department, year) group of the sorted
frame, the sums of the is_freeze, is_heat and is_heavy_rain boolean
columns, that is the counts of days on the strict side of each
threshold. -/
def extreme_temperatures_and_rain (climate : List Rec) : List ExtRow :=
  let df := sortClimate climate
  (dedupF (df.map (fun r => (r.dep, r.year)))).map (fun k =>
    { dep := k.1, year := k.2,
      freeze_days_count := df.countP (fun r =>
        r.dep == k.1 && r.year == k.2 && decide (r.temp_max < FREEZE_THRESHOLD_KELVIN)),
      heat_days_count := df.countP (fun r =>
        r.dep == k.1 && r.year == k.2 && decide (HEAT_THRESHOLD_KELVIN < r.temp_max)),
      heavy_rain_days_count := df.countP (fun r =>
        r.dep == k.1 && r.year == k.2 && decide (HEAVY_RAIN_THRESHOLD_MM < r.precip)) })

/- ------------------------------------------------------------------ -/
/- precipitation_lag (silver_to_gold.py)                               -/
/- ------------------------------------------------------------------ -/

/-- The growing_year column: a day in month WINTER_START_MONTH or later
is attributed to the next calendar year, otherwise to its own year. -/
def growingYear (r : Rec) : Int :=
  if WINTER_START_MONTH ≤ r.time.month then r.year + 1 else r.year

/-- One output row of the winter-precipitation-lag aggregator; its year
column holds the growing year. -/
structure LagRow where
  dep : String
  year : Int
  winter_precip_total : Rat
deriving DecidableEq

/-- The winter_df selection: rows whose month lies in WINTER_MONTHS. -/
def winterRows (climate : List Rec) : List Rec :=
  climate.filter (fun r => decide (r.time.month ∈ WINTER_MONTHS))

/-- The winter-precipitation-lag aggregator: group the winter rows by
(department, growing_year) and sum precipitation in each group. -/
def precipitation_lag (climate : List Rec) : List LagRow :=
  (dedupF ((winterRows climate).map (fun r => (r.dep, growingYear r)))).map (fun k =>
    { dep := k.1, year := k.2,
      winter_precip_total :=
        (((winterRows climate).filter (fun r => r.dep == k.1 && growingYear r == k.2)).map
          (fun r => r.precip)).sum })

/-- Winter precipitation of one (department, growing-year) key, written
from the words of the specification: the sum of precipitation over
exactly the six winter months, where a day of months 9 to 12 contributes
to the next calendar year and a day of months 1 to 2 contributes to its
own year. -/
def winterSpecTotal (climate : List Rec) (d : String) (gy : Int) : Rat :=
  ((climate.filter (fun r => decide (r.dep = d ∧
      ((9 ≤ r.time.month ∧ r.time.month ≤ 12 ∧ r.year + 1 = gy) ∨
       ((r.time.month = 1 ∨ r.time.month = 2) ∧ r.year = gy))))).map
    (fun r => r.precip)).sum

/- ------------------------------------------------------------------ -/
/- Per-scenario feature merge (silver_to_gold.py main loop)            -/
/- ------------------------------------------------------------------ -/

/-- One row of a per-scenario merged feature table. Merged feature values
are Options: a left join writes the looked-up value where the right table
has the key and a missing value where it does not. The seasonal columns
are not modelled; no claim mentions them. -/
structure FeatRow where
  dep : String
  year : Int
  scen : String
  dry_periods_count : Option Nat
  max_dry_spell_days : Option Nat
  freeze_days_count : Option Nat
  heat_days_count : Option Nat
  heavy_rain_days_count : Option Nat
  winter_precip_total : Option Rat
deriving DecidableEq

/-- Lookup of the unique dry_periods row carrying a key, as a left join
on (department, year) sees it. -/
def findDryRow (rows : List DryRow) (d : String) (y : Int) : Option DryRow :=
  rows.find? (fun q => q.dep == d && q.year == y)

/-- Lookup of the unique extreme-day row carrying a key. -/
def findExtRow (rows : List ExtRow) (d : String) (y : Int) : Option ExtRow :=
  rows.find? (fun q => q.dep == d && q.year == y)

/-- Lookup of the unique winter-lag row carrying a key. -/
def findLagRow (rows : List LagRow) (d : String) (y : Int) : Option LagRow :=
  rows.find? (fun q => q.dep == d && q.year == y)

/-- The per-scenario merge of silver_to_gold: the base is the distinct
(department, year) pairs of the scenario slice, tagged with the scenario
name, and each extractor output is left-joined onto it. -/
def scenarioFeatures (sname : String) (slice : List Rec) : List FeatRow :=
  (deptYearPairs slice).map (fun k =>
    { dep := k.1, year := k.2, scen := sname,
      dry_periods_count :=
        (findDryRow (dry_periods slice MIN_DRY_SPELL_DAYS) k.1 k.2).map
          (fun q => q.dry_periods_count),
      max_dry_spell_days :=
        (findDryRow (dry_periods slice MIN_DRY_SPELL_DAYS) k.1 k.2).map
          (fun q => q.max_dry_spell_days),
      freeze_days_count :=
        (findExtRow (extreme_temperatures_and_rain slice) k.1 k.2).map
          (fun q => q.freeze_days_count),
      heat_days_count :=
        (findExtRow (extreme_temperatures_and_rain slice) k.1 k.2).map
          (fun q => q.heat_days_count),
      heavy_rain_days_count :=
        (findExtRow (extreme_temperatures_and_rain slice) k.1 k.2).map
          (fun q => q.heavy_rain_days_count),
      winter_precip_total :=
        (findLagRow (precipitation_lag slice) k.1 k.2).map
          (fun q => q.winter_precip_total) })

/- ------------------------------------------------------------------ -/
/- create_gold_datasets (silver_to_gold.py)                            -/
/- ------------------------------------------------------------------ -/

/-- One row of the cleaned yield table as create_gold_datasets consumes
it. -/
structure YieldRow where
  dep : String
  year : Int
  yld : Rat
deriving DecidableEq

/-- Inner merge of yield with climate features on (department, year):
each yield row is paired with every feature row carrying the same key,
and unmatched rows on either side are dropped. -/
def innerJoinYieldClimate (ys : List YieldRow) (cs : List FeatRow) :
    List (YieldRow × FeatRow) :=
  ys.flatMap (fun yr =>
    (cs.filter (fun c => c.dep == yr.dep && c.year == yr.year)).map (fun c => (yr, c)))

/-- create_gold_datasets: partition the feature table by scenario =
historical, inner-join yield with the historical part, and split the
joined table on the year threshold (at most the threshold goes to
training, strictly above goes to validation); the future partition passes
through untouched. -/
def create_gold_datasets (dfYield : List YieldRow) (climateFull : List FeatRow)
    (validationThreshold : Int) :
    List (YieldRow × FeatRow) × List (YieldRow × FeatRow) × List FeatRow :=
  let historicalClimate := climateFull.filter (fun c => c.scen == SCENARIO_HISTORICAL)
  let futureClimate := climateFull.filter (fun c => !(c.scen == SCENARIO_HISTORICAL))
  let trainVal := innerJoinYieldClimate dfYield historicalClimate
  let trainingData := trainVal.filter (fun p => decide (p.1.year ≤ validationThreshold))
  let validationData := trainVal.filter (fun p => decide (validationThreshold < p.1.year))
  (trainingData, validationData, futureClimate)

/- ------------------------------------------------------------------ -/
/- clean_bronze_data, yield path (bronze_to_silver.py)                 -/
/- ------------------------------------------------------------------ -/

/-- One row of the raw yield table after the numeric coercions: a missing
number is None. -/
structure RawYield where
  dep : String
  year : Option Int
  yld : Option Rat
  area : Option Rat
  production : Option Rat
deriving DecidableEq

/-- The fields of a raw climate row that the yield-cleaning path reads:
scenario, department and year. -/
structure RawClimate where
  scen : String
  dep : String
  year : Int
deriving DecidableEq

/-- The yield-recovery step: where yield is missing, area and production
are present and area is positive, set yield to production divided by
area. -/
def recoverYield (r : RawYield) : RawYield :=
  match r.yld, r.area, r.production with
  | none, some a, some p =>
    if 0 < a then { r with yld := some (Rat.div p a) } else r
  | _, _, _ => r

/-- The yield-cleaning path of clean_bronze_data: recover yields, keep
rows whose trimmed department is in the historical climate department
set, keep rows whose year is in the historical climate year set (a row
with a missing year is dropped, as isin is false on NaN), drop rows still
missing yield, and finally log the kept-row percentage, whose denominator
is the initial row count: with zero input rows that division raises
ZeroDivisionError, modelled as the error branch. -/
def clean_bronze_yield (dfYieldRaw : List RawYield) (dfClimateRaw : List RawClimate) :
    Except String (List RawYield) :=
  let histRows := dfClimateRaw.filter (fun c => c.scen == SCENARIO_HISTORICAL)
  let climateDepts := histRows.map (fun c => c.dep)
  let climateYears := histRows.map (fun c => c.year)
  let n0 := dfYieldRaw.length
  let ys1 := dfYieldRaw.map recoverYield
  let ys2 := ys1.filter (fun r => climateDepts.contains r.dep.trim)
  let ys3 := ys2.filter (fun r =>
    match r.year with
    | some yv => climateYears.contains yv
    | none => false)
  let ys4 := ys3.filter (fun r => r.yld.isSome)
  if n0 = 0 then Except.error "ZeroDivisionError: division by zero"
  else Except.ok ys4

/- ------------------------------------------------------------------ -/
/- Label encoder (model_inputs_loading.py / prediction_utils.py)       -/
/- ------------------------------------------------------------------ -/

/-- Model of the fitted sklearn LabelEncoder as the code uses it: the
classes_ attribute, the sorted list of the distinct values seen by fit. -/
structure LabelEncoderM where
  classes : List String
deriving DecidableEq

/-- Non-strict string order used to sort the encoder classes. -/
def strLe (a b : String) : Prop := strLtB b a = false

instance : DecidableRel strLe := fun a b =>
  inferInstanceAs (Decidable (strLtB b a = false))

/-- Model of LabelEncoder.fit: store the sorted distinct values. -/
def leFit (values : List String) : LabelEncoderM :=
  { classes := sortLe strLe (dedupF values) }

/-- Position of a value in the class list, if present. -/
def idxOf (cs : List String) (s : String) : Option Nat :=
  match cs with
  | [] => none
  | c :: rest => if c = s then some 0 else (idxOf rest s).map (fun i => i + 1)

/-- Model of LabelEncoder.transform on one value: its class index, or the
unseen-label error sklearn raises. -/
def leTransform (e : LabelEncoderM) (s : String) : Except String Nat :=
  match idxOf e.classes s with
  | some i => Except.ok i
  | none => Except.error "y contains previously unseen labels"

/-- Model of LabelEncoder.inverse_transform on one code. -/
def leInverse (e : LabelEncoderM) (i : Nat) : Except String String :=
  match e.classes[i]? with
  | some c => Except.ok c
  | none => Except.error "index out of range"

/-- Decode after encode, the round trip of the specification. -/
def decodeEncode (e : LabelEncoderM) (s : String) : Except String String :=
  match leTransform e s with
  | Except.ok i => leInverse e i
  | Except.error msg => Except.error msg

/-- The encoder fitted by load_training_data: fit on the concatenation of
the training and validation department columns; later stages receive this
encoder as an argument and never refit it. -/
def load_training_encoder (trainDeps testDeps : List String) : LabelEncoderM :=
  leFit (trainDeps ++ testDeps)

/- ------------------------------------------------------------------ -/
/- Concrete inputs used by the witnesses                               -/
/- ------------------------------------------------------------------ -/

/-- Builder for a daily record in the historical scenario. -/
def mkRec (d : String) (y : Int) (day month : Nat) (tmax p : Rat) : Rec :=
  { scen := "historical", dep := d, year := y, time := { day := day, month := month },
    temp_mean := 280, temp_max := tmax, precip := p }

/-- Seven consecutive dry days of one department in one year. -/
def c1wClimate : List Rec :=
  [mkRec "a" 2000 1 5 280 0, mkRec "a" 2000 2 5 280 0, mkRec "a" 2000 3 5 280 0,
   mkRec "a" 2000 4 5 280 0, mkRec "a" 2000 5 5 280 0, mkRec "a" 2000 6 5 280 0,
   mkRec "a" 2000 7 5 280 0]

/-- Two dry days of one department whose dates are five days apart. -/
def c2gapClimate : List Rec :=
  [mkRec "a" 2000 0 5 280 0, mkRec "a" 2000 5 5 280 0]

/-- Eight consecutive dry days of one department in one year. -/
def c10wClimate : List Rec :=
  [mkRec "a" 2000 1 5 280 0, mkRec "a" 2000 2 5 280 0, mkRec "a" 2000 3 5 280 0,
   mkRec "a" 2000 4 5 280 0, mkRec "a" 2000 5 5 280 0, mkRec "a" 2000 6 5 280 0,
   mkRec "a" 2000 7 5 280 0, mkRec "a" 2000 8 5 280 0]

/-- One December day and one January day of the same department. -/
def c3wClimate : List Rec :=
  [mkRec "a" 2000 349 12 280 3, mkRec "a" 2001 380 1 280 4]

/-- The single winter-lag output row of c3wClimate: the December day of
year 2000 and the January day of year 2001 both land on growing year
2001. -/
def c3wRow : LagRow :=
  { dep := "a", year := 2001,
    winter_precip_total :=
      (((winterRows c3wClimate).filter
        (fun r => r.dep == "a" && growingYear r == 2001)).map (fun r => r.precip)).sum }

/-- A two-day slice with one dry-day-free department and no winter rows. -/
def c5wSlice : List Rec :=
  [mkRec "a" 2000 100 4 280 5, mkRec "a" 2000 101 4 280 5]

/-- The merged feature row of c5wSlice: explicit zeros for the dry-spell
columns and a missing winter total. -/
def c5wRow : FeatRow :=
  { dep := "a", year := 2000, scen := "historical", dry_periods_count := some 0,
    max_dry_spell_days := some 0, freeze_days_count := some 0, heat_days_count := some 0,
    heavy_rain_days_count := some 0, winter_precip_total := none }

/-- Three days around the freeze, heat and rain thresholds. -/
def c6wClimate : List Rec :=
  [mkRec "a" 2000 1 5 (mkRat 27315 100) 0,
   mkRec "a" 2000 2 5 (mkRat 27314 100) 0,
   mkRec "a" 2000 3 5 (mkRat 30316 100) (mkRat 21 1)]

/-- One raw yield row with a present yield value. -/
def c7wYield : List RawYield :=
  [{ dep := "a", year := some 2000, yld := some 5, area := some 10, production := some 50 }]

/-- A raw climate table whose rows all carry a non-historical scenario. -/
def c7wClimate : List RawClimate :=
  [{ scen := "ssp2_4_5", dep := "a", year := 2000 }]

/-- One yield row and two feature rows for the split witness. -/
def c4wYield : List YieldRow :=
  [{ dep := "a", year := 2000, yld := 5 }, { dep := "a", year := 2014, yld := 6 }]

/-- Feature rows for the split witness: two historical years on both
sides of the threshold and one future row. -/
def c4wFeat : List FeatRow :=
  [{ dep := "a", year := 2000, scen := "historical", dry_periods_count := some 0,
     max_dry_spell_days := some 0, freeze_days_count := some 0, heat_days_count := some 0,
     heavy_rain_days_count := some 0, winter_precip_total := none },
   { dep := "a", year := 2014, scen := "historical", dry_periods_count := some 0,
     max_dry_spell_days := some 0, freeze_days_count := some 0, heat_days_count := some 0,
     heavy_rain_days_count := some 0, winter_precip_total := none },
   { dep := "a", year := 2050, scen := "ssp2_4_5", dry_periods_count := some 0,
     max_dry_spell_days := some 0, freeze_days_count := some 0, heat_days_count := some 0,
     heavy_rain_days_count := some 0, winter_precip_total := none }]

/-- The joined year-2000 row of the split witness. -/
def c4wTrainPair : YieldRow × FeatRow :=
  ({ dep := "a", year := 2000, yld := 5 },
   { dep := "a", year := 2000, scen := "historical", dry_periods_count := some 0,
     max_dry_spell_days := some 0, freeze_days_count := some 0, heat_days_count := some 0,
     heavy_rain_days_count := some 0, winter_precip_total := none })

/-- The joined year-2014 row of the split witness. -/
def c4wValPair : YieldRow × FeatRow :=
  ({ dep := "a", year := 2014, yld := 6 },
   { dep := "a", year := 2014, scen := "historical", dry_periods_count := some 0,
     max_dry_spell_days := some 0, freeze_days_count := some 0, heat_days_count := some 0,
     heavy_rain_days_count := some 0, winter_precip_total := none })

/- ------------------------------------------------------------------ -/
/- Lemmas: deduplication and sorting                                   -/
/- ------------------------------------------------------------------ -/

theorem mem_dedupF {α : Type} [DecidableEq α] {a : α} :
    ∀ {l : List α}, a ∈ dedupF l ↔ a ∈ l := by
  intro l
  induction l with
  | nil => simp [dedupF]
  | cons b t ih =>
    simp only [dedupF, List.mem_cons, List.mem_filter, decide_eq_true_eq, ih]
    constructor
    · rintro (h | ⟨h, _⟩)
      · exact Or.inl h
      · exact Or.inr h
    · rintro (h | h)
      · exact Or.inl h
      · by_cases hab : a = b
        · exact Or.inl hab
        · exact Or.inr ⟨h, hab⟩

theorem nodup_dedupF {α : Type} [DecidableEq α] : ∀ (l : List α), (dedupF l).Nodup := by
  intro l
  induction l with
  | nil => simp [dedupF]
  | cons b t ih =>
    simp only [dedupF, List.nodup_cons]
    constructor
    · intro hmem
      have h2 := (List.mem_filter.mp hmem).2
      simp at h2
    · exact ih.filter _

theorem perm_insertLe {α : Type} (le : α → α → Prop) [DecidableRel le] (a : α) :
    ∀ (l : List α), (insertLe le a l).Perm (a :: l) := by
  intro l
  induction l with
  | nil => exact List.Perm.refl _
  | cons b t ih =>
    unfold insertLe
    split
    · exact List.Perm.refl _
    · exact (ih.cons b).trans (List.Perm.swap a b t)

theorem perm_sortLe {α : Type} (le : α → α → Prop) [DecidableRel le] :
    ∀ (l : List α), (sortLe le l).Perm l := by
  intro l
  induction l with
  | nil => exact List.Perm.refl _
  | cons a t ih =>
    exact (perm_insertLe le a (sortLe le t)).trans (ih.cons a)

theorem pairwise_insertLe {α : Type} (le : α → α → Prop) [DecidableRel le]
    (htot : ∀ a b, ¬le a b → le b a) (htr : ∀ a b c, le a b → le b c → le a c) (a : α) :
    ∀ (l : List α), l.Pairwise le → (insertLe le a l).Pairwise le := by
  intro l
  induction l with
  | nil => intro _; simp [insertLe]
  | cons b t ih =>
    intro hp
    unfold insertLe
    split
    case isTrue hab =>
      refine List.Pairwise.cons ?_ hp
      intro x hx
      rcases List.mem_cons.mp hx with rfl | hx2
      · exact hab
      · exact htr a b x hab (List.rel_of_pairwise_cons hp hx2)
    case isFalse hab =>
      have hba := htot a b hab
      refine List.Pairwise.cons ?_ (ih hp.of_cons)
      intro x hx
      have hx2 := (perm_insertLe le a t).mem_iff.mp hx
      rcases List.mem_cons.mp hx2 with rfl | hx3
      · exact hba
      · exact List.rel_of_pairwise_cons hp hx3

theorem pairwise_sortLe {α : Type} (le : α → α → Prop) [DecidableRel le]
    (htot : ∀ a b, ¬le a b → le b a) (htr : ∀ a b c, le a b → le b c → le a c) :
    ∀ (l : List α), (sortLe le l).Pairwise le := by
  intro l
  induction l with
  | nil => simp [sortLe]
  | cons a t ih => exact pairwise_insertLe le htot htr a (sortLe le t) ih

/- ------------------------------------------------------------------ -/
/- Lemmas: the string order                                            -/
/- ------------------------------------------------------------------ -/

theorem strLtB_go_trans :
    ∀ (a b c : List Char), strLtB.go a b = true → strLtB.go b c = true →
      strLtB.go a c = true := by
  intro a
  induction a with
  | nil =>
    intro b c hab hbc
    cases c with
    | nil =>
      cases b with
      | nil => exact hab
      | cons d ds => simp [strLtB.go] at hbc
    | cons e es => simp [strLtB.go]
  | cons x xs ih =>
    intro b c hab hbc
    cases b with
    | nil => simp [strLtB.go] at hab
    | cons y ys =>
      cases c with
      | nil => simp [strLtB.go] at hbc
      | cons z zs =>
        simp only [strLtB.go] at hab hbc ⊢
        by_cases hxy : x.val.toNat < y.val.toNat
        · by_cases hyz : y.val.toNat < z.val.toNat
          · simp [Nat.lt_trans hxy hyz]
          · simp only [if_neg hyz] at hbc
            by_cases hzy : z.val.toNat < y.val.toNat
            · simp [if_pos hzy] at hbc
            · have hyz2 : y.val.toNat = z.val.toNat := Nat.le_antisymm
                (Nat.le_of_not_lt hzy) (Nat.le_of_not_lt hyz)
              simp [hyz2 ▸ hxy]
        · simp only [if_neg hxy] at hab
          by_cases hyx : y.val.toNat < x.val.toNat
          · simp [if_pos hyx] at hab
          · have hxy2 : x.val.toNat = y.val.toNat := Nat.le_antisymm
              (Nat.le_of_not_lt hyx) (Nat.le_of_not_lt hxy)
            simp only [if_neg hxy, if_neg hyx] at hab
            by_cases hyz : y.val.toNat < z.val.toNat
            · simp [hxy2 ▸ hyz]
            · simp only [if_neg hyz] at hbc
              by_cases hzy : z.val.toNat < y.val.toNat
              · simp [if_pos hzy] at hbc
              · have hxz : ¬ x.val.toNat < z.val.toNat := by omega
                have hzx : ¬ z.val.toNat < x.val.toNat := by omega
                simp only [if_neg hzy] at hbc
                simp only [if_neg hxz, if_neg hzx]
                exact ih ys zs hab hbc

theorem strLtB_go_eq_of_false :
    ∀ (a b : List Char), strLtB.go a b = false → strLtB.go b a = false → a = b := by
  intro a
  induction a with
  | nil =>
    intro b hab _
    cases b with
    | nil => rfl
    | cons y ys => simp [strLtB.go] at hab
  | cons x xs ih =>
    intro b hab hba
    cases b with
    | nil => simp [strLtB.go] at hba
    | cons y ys =>
      simp only [strLtB.go] at hab hba
      by_cases hxy : x.val.toNat < y.val.toNat
      · simp [if_pos hxy] at hab
      · by_cases hyx : y.val.toNat < x.val.toNat
        · simp [if_pos hyx] at hba
        · simp only [if_neg hxy, if_neg hyx] at hab hba
          have hval : x.val.toNat = y.val.toNat := Nat.le_antisymm
            (Nat.le_of_not_lt hyx) (Nat.le_of_not_lt hxy)
          have hc : x = y := Char.ext (UInt32.ext hval)
          rw [hc, ih ys hab hba]

theorem strLtB_trans {a b c : String} (hab : strLtB a b = true) (hbc : strLtB b c = true) :
    strLtB a c = true :=
  strLtB_go_trans a.data b.data c.data hab hbc

theorem strLtB_eq_of_false {a b : String} (hab : strLtB a b = false)
    (hba : strLtB b a = false) : a = b := by
  have h := strLtB_go_eq_of_false a.data b.data hab hba
  cases a
  cases b
  simp only at h
  rw [h]

/- ------------------------------------------------------------------ -/
/- Lemmas: the record order used by sort_values                        -/
/- ------------------------------------------------------------------ -/

theorem recLe_total : ∀ a b : Rec, ¬recLe a b → recLe b a := by
  intro a b h
  unfold recLe at h ⊢
  push_neg at h
  obtain ⟨h1, h2⟩ := h
  by_cases hba : strLtB b.dep a.dep = true
  · exact Or.inl hba
  · have hdep : a.dep = b.dep := strLtB_eq_of_false
      (Bool.eq_false_iff.mpr h1) (Bool.eq_false_iff.mpr hba)
    exact Or.inr ⟨hdep.symm, Nat.le_of_lt (h2 hdep)⟩

theorem recLe_trans : ∀ a b c : Rec, recLe a b → recLe b c → recLe a c := by
  intro a b c hab hbc
  unfold recLe at hab hbc ⊢
  rcases hab with h1 | ⟨h1, h1d⟩
  · rcases hbc with h2 | ⟨h2, _⟩
    · exact Or.inl (strLtB_trans h1 h2)
    · exact Or.inl (h2 ▸ h1)
  · rcases hbc with h2 | ⟨h2, h2d⟩
    · exact Or.inl (h1 ▸ h2)
    · exact Or.inr ⟨h1.trans h2, Nat.le_trans h1d h2d⟩

theorem pairwise_sortClimate (l : List Rec) : (sortClimate l).Pairwise recLe :=
  pairwise_sortLe recLe recLe_total recLe_trans l

theorem perm_sortClimate (l : List Rec) : (sortClimate l).Perm l :=
  perm_sortLe recLe l

/- ------------------------------------------------------------------ -/
/- Lemmas: attachGid and gidLens                                       -/
/- ------------------------------------------------------------------ -/

theorem attachGid_cons_dry_true {r : Rec} (h : isDryR r = true) (g : Nat) (rs : List Rec) :
    attachGid true g (r :: rs) = (r, g) :: attachGid true g rs := by
  simp [attachGid, h]

theorem attachGid_cons_dry_false {r : Rec} (h : isDryR r = true) (g : Nat) (rs : List Rec) :
    attachGid false g (r :: rs) = (r, g + 1) :: attachGid true (g + 1) rs := by
  simp [attachGid, h]

theorem attachGid_cons_wet_true {r : Rec} (h : isDryR r = false) (g : Nat) (rs : List Rec) :
    attachGid true g (r :: rs) = attachGid false (g + 1) rs := by
  simp [attachGid, h]

theorem attachGid_cons_wet_false {r : Rec} (h : isDryR r = false) (g : Nat) (rs : List Rec) :
    attachGid false g (r :: rs) = attachGid false g rs := by
  simp [attachGid, h]

theorem attachGid_gid_lb :
    ∀ (rs : List Rec) (st : Bool) (g : Nat), ∀ q ∈ attachGid st g rs,
      (if st = true then g else g + 1) ≤ q.2 := by
  intro rs
  induction rs with
  | nil => intro st g q hq; simp [attachGid] at hq
  | cons r rs ih =>
    intro st g q hq
    by_cases hdr : isDryR r = true
    · cases st with
      | true =>
        rw [attachGid_cons_dry_true hdr] at hq
        rcases List.mem_cons.mp hq with rfl | hq2
        · simp
        · simpa using ih true g q hq2
      | false =>
        rw [attachGid_cons_dry_false hdr] at hq
        rcases List.mem_cons.mp hq with rfl | hq2
        · simp
        · have := ih true (g + 1) q hq2
          simpa using this
    · have hdr2 : isDryR r = false := Bool.eq_false_iff.mpr hdr
      cases st with
      | true =>
        rw [attachGid_cons_wet_true hdr2] at hq
        have := ih false (g + 1) q hq
        simp at this ⊢
        omega
      | false =>
        rw [attachGid_cons_wet_false hdr2] at hq
        exact ih false g q hq

theorem gidLens_cons (x : Rec) (g : Nat) (M : List (Rec × Nat)) :
    gidLens ((x, g) :: M) = (M.countP (fun q => q.2 == g) + 1) :: gidTail g M := by
  unfold gidLens gidTail
  simp only [List.map_cons]
  rw [show dedupF (g :: M.map (fun q => q.2))
      = g :: (dedupF (M.map (fun q => q.2))).filter (fun b => decide (b ≠ g)) from rfl]
  simp only [List.map_cons]
  refine congrArg₂ (· :: ·) ?_ ?_
  · rw [List.countP_cons]
    simp
  · apply List.map_congr_left
    intro h hh
    have hne : h ≠ g := by
      have h2 := (List.mem_filter.mp hh).2
      simpa using h2
    rw [List.countP_cons]
    have : ((x, g).2 == h) = false := by
      simp
      exact fun hgh => hne hgh.symm
    simp [this]

theorem gidTail_cons_same (y : Rec) (g : Nat) (M : List (Rec × Nat)) :
    gidTail g ((y, g) :: M) = gidTail g M := by
  unfold gidTail
  simp only [List.map_cons]
  rw [show dedupF (g :: M.map (fun q => q.2))
      = g :: (dedupF (M.map (fun q => q.2))).filter (fun b => decide (b ≠ g)) from rfl]
  rw [List.filter_cons]
  simp only [decide_eq_true_eq]
  rw [if_neg (by simp)]
  rw [List.filter_filter]
  have hff : ∀ b : Nat, (decide (b ≠ g) && decide (b ≠ g)) = decide (b ≠ g) := by
    intro b; cases decide (b ≠ g) <;> rfl
  rw [List.filter_congr (fun b _ => hff b)]
  apply List.map_congr_left
  intro h hh
  have hne : h ≠ g := by
    have h2 := (List.mem_filter.mp hh).2
    simpa using h2
  rw [List.countP_cons]
  have : ((y, g).2 == h) = false := by
    simp
    exact fun hgh => hne hgh.symm
  simp [this]

theorem gidTail_eq_gidLens (g : Nat) (M : List (Rec × Nat)) (h : ∀ q ∈ M, q.2 ≠ g) :
    gidTail g M = gidLens M := by
  unfold gidTail gidLens
  rw [List.filter_eq_self.mpr]
  intro b hb
  have hb2 : b ∈ M.map (fun q => q.2) := mem_dedupF.mp hb
  obtain ⟨q, hq, rfl⟩ := List.mem_map.mp hb2
  simpa using h q hq

theorem gidLens_cons_fresh (x : Rec) (g : Nat) (M : List (Rec × Nat))
    (h : ∀ q ∈ M, q.2 ≠ g) : gidLens ((x, g) :: M) = 1 :: gidLens M := by
  rw [gidLens_cons, gidTail_eq_gidLens g M h]
  have hc : M.countP (fun q => q.2 == g) = 0 := by
    rw [List.countP_eq_zero]
    intro q hq
    simpa using h q hq
  rw [hc]

theorem gidLens_cons_cons (x y : Rec) (g : Nat) (M : List (Rec × Nat)) :
    gidLens ((x, g) :: (y, g) :: M)
      = (M.countP (fun q => q.2 == g) + 2) :: gidTail g M := by
  rw [gidLens_cons, gidTail_cons_same, List.countP_cons]
  simp

/- ------------------------------------------------------------------ -/
/- Lemmas: dryRunLengths unfolding                                     -/
/- ------------------------------------------------------------------ -/

theorem dryRL_one_dry {p : Rat} (h : isDryP p = true) : dryRunLengths [p] = [1] := by
  simp [dryRunLengths, h]

theorem dryRL_wet {p : Rat} (h : isDryP p = false) :
    ∀ l : List Rat, dryRunLengths (p :: l) = dryRunLengths l := by
  intro l
  cases l with
  | nil => simp [dryRunLengths, h]
  | cons q t => simp [dryRunLengths, h]

theorem dryRL_dry_dry {p q : Rat} (hp : isDryP p = true) (hq : isDryP q = true)
    (l : List Rat) :
    dryRunLengths (p :: q :: l)
      = match dryRunLengths (q :: l) with
        | [] => [1]
        | k :: ks => (k + 1) :: ks := by
  simp [dryRunLengths, hp, hq]

theorem dryRL_dry_wet {p q : Rat} (hp : isDryP p = true) (hq : isDryP q = false)
    (l : List Rat) : dryRunLengths (p :: q :: l) = 1 :: dryRunLengths l := by
  simp [dryRunLengths, hp, hq]

/- ------------------------------------------------------------------ -/
/- The bridge: gidLens of attachGid equals dryRunLengths               -/
/- ------------------------------------------------------------------ -/

theorem gidLens_attachGid :
    ∀ (rs : List Rec) (st : Bool) (g : Nat),
      gidLens (attachGid st g rs) = dryRunLengths (rs.map (fun r => r.precip)) := by
  intro rs
  induction rs with
  | nil => intro st g; rfl
  | cons r rs ih =>
    have hdryP : isDryP r.precip = isDryR r := rfl
    intro st g
    by_cases hdr : isDryR r = true
    · have htrue : ∀ g2 : Nat,
          gidLens (attachGid true g2 (r :: rs))
            = dryRunLengths ((r :: rs).map (fun r => r.precip)) := by
        intro g2
        rw [attachGid_cons_dry_true hdr]
        cases rs with
        | nil =>
          rw [show attachGid true g2 ([] : List Rec) = [] from rfl]
          rw [gidLens_cons]
          simp only [List.countP_nil, List.map_cons, List.map_nil]
          rw [dryRL_one_dry (hdryP.trans hdr)]
          rfl
        | cons r2 rs2 =>
          have hdryP2 : isDryP r2.precip = isDryR r2 := rfl
          by_cases hdr2 : isDryR r2 = true
          · have hM := ih true g2
            rw [attachGid_cons_dry_true hdr2, gidLens_cons] at hM
            rw [attachGid_cons_dry_true hdr2, gidLens_cons_cons]
            simp only [List.map_cons] at hM ⊢
            rw [dryRL_dry_dry (hdryP.trans hdr) (hdryP2.trans hdr2), ← hM]
          · have hdr2f : isDryR r2 = false := Bool.eq_false_iff.mpr hdr2
            rw [attachGid_cons_wet_true hdr2f]
            have hfresh : ∀ q ∈ attachGid false (g2 + 1) rs2, q.2 ≠ g2 := by
              intro q hq
              have := attachGid_gid_lb rs2 false (g2 + 1) q hq
              simp at this
              omega
            rw [gidLens_cons_fresh _ _ _ hfresh]
            have h1 : gidLens (attachGid false (g2 + 1) rs2)
                = dryRunLengths (rs2.map (fun r => r.precip)) := by
              rw [← attachGid_cons_wet_false hdr2f (g2 + 1) rs2]
              rw [ih false (g2 + 1)]
              simp only [List.map_cons]
              rw [dryRL_wet (hdryP2.trans hdr2f)]
            rw [h1]
            simp only [List.map_cons]
            rw [dryRL_dry_wet (hdryP.trans hdr) (hdryP2.trans hdr2f)]
      cases st with
      | true => exact htrue g
      | false =>
        rw [attachGid_cons_dry_false hdr, ← attachGid_cons_dry_true hdr]
        exact htrue (g + 1)
    · have hdrf : isDryR r = false := Bool.eq_false_iff.mpr hdr
      have hrhs : dryRunLengths ((r :: rs).map (fun r => r.precip))
          = dryRunLengths (rs.map (fun r => r.precip)) := by
        simp only [List.map_cons]
        exact dryRL_wet (hdryP.trans hdrf) _
      cases st with
      | true =>
        rw [attachGid_cons_wet_true hdrf, ih false (g + 1), hrhs]
      | false =>
        rw [attachGid_cons_wet_false hdrf, ih false g, hrhs]

/- ------------------------------------------------------------------ -/
/- Lemmas: tagGroups decomposition                                     -/
/- ------------------------------------------------------------------ -/

theorem strLtB_irrefl (a : String) : strLtB a a = false := by
  show strLtB.go a.data a.data = false
  induction a.data with
  | nil => rfl
  | cons c cs ih => simp [strLtB.go, ih]

theorem tagGroups_filter_eq_attachGid (d : String) (y : Int) :
    ∀ (rs : List Rec), (∀ r ∈ rs, r.dep = d ∧ r.year = y) → ∀ (g : Nat) (b : Bool),
      (tagGroups rs g (some (d, b))).filter (dryKeyPred d y) = attachGid b g rs := by
  intro rs
  induction rs with
  | nil => intro _ g b; rfl
  | cons r rs ih =>
    intro h g b
    obtain ⟨hdep, hyear⟩ := h r (List.mem_cons_self r rs)
    have hrest : ∀ r2 ∈ rs, r2.dep = d ∧ r2.year = y :=
      fun r2 hr2 => h r2 (List.mem_cons_of_mem r hr2)
    rw [show tagGroups (r :: rs) g (some (d, b))
        = (r, tagStep r g (some (d, b)))
          :: tagGroups rs (tagStep r g (some (d, b))) (some (r.dep, isDryR r)) from rfl]
    rw [List.filter_cons]
    cases hdr : isDryR r with
    | true =>
      have hstep : tagStep r g (some (d, b)) = if b then g else g + 1 := by
        unfold tagStep
        simp only [hdep, if_pos rfl, hdr]
        cases b <;> rfl
      have hpred : dryKeyPred d y (r, tagStep r g (some (d, b))) = true := by
        simp [dryKeyPred, hdr, hdep, hyear]
      rw [if_pos hpred, hdep, ih hrest _ true, hstep]
      cases b with
      | true => rw [if_pos rfl, attachGid_cons_dry_true hdr]
      | false => rw [if_neg (by simp), attachGid_cons_dry_false hdr]
    | false =>
      have hstep : tagStep r g (some (d, b)) = if b then g + 1 else g := by
        unfold tagStep
        simp only [hdep, if_pos rfl, hdr]
        cases b <;> rfl
      have hpred : dryKeyPred d y (r, tagStep r g (some (d, b))) = false := by
        simp [dryKeyPred, hdr]
      rw [if_neg (by simp [hpred]), hdep, ih hrest _ false, hstep]
      cases b with
      | true => rw [if_pos rfl, attachGid_cons_wet_true hdr]
      | false => rw [if_neg (by simp), attachGid_cons_wet_false hdr]

theorem tagGroups_append :
    ∀ (xs ys : List Rec) (g : Nat) (prev : Option (String × Bool)),
      ∃ g2 prev2,
        tagGroups (xs ++ ys) g prev = tagGroups xs g prev ++ tagGroups ys g2 prev2 ∧
        ((xs = [] ∧ prev2 = prev) ∨ ∃ x ∈ xs, prev2 = some (x.dep, isDryR x)) := by
  intro xs
  induction xs with
  | nil =>
    intro ys g prev
    refine ⟨g, prev, ?_, Or.inl ⟨rfl, rfl⟩⟩
    rw [List.nil_append, show tagGroups [] g prev = [] from rfl, List.nil_append]
  | cons x xs ih =>
    intro ys g prev
    obtain ⟨g2, prev2, heq, hprev⟩ := ih ys (tagStep x g prev) (some (x.dep, isDryR x))
    refine ⟨g2, prev2, ?_, Or.inr ?_⟩
    · rw [List.cons_append]
      rw [show tagGroups (x :: (xs ++ ys)) g prev
          = (x, tagStep x g prev)
            :: tagGroups (xs ++ ys) (tagStep x g prev) (some (x.dep, isDryR x)) from rfl]
      rw [show tagGroups (x :: xs) g prev
          = (x, tagStep x g prev)
            :: tagGroups xs (tagStep x g prev) (some (x.dep, isDryR x)) from rfl]
      rw [heq, List.cons_append]
    · rcases hprev with ⟨_, hp⟩ | ⟨x2, hx2, hp⟩
      · exact ⟨x, List.mem_cons_self x xs, hp⟩
      · exact ⟨x2, List.mem_cons_of_mem x hx2, hp⟩

theorem tagGroups_filter_ne (d : String) (y : Int) :
    ∀ (xs : List Rec) (g : Nat) (prev : Option (String × Bool)),
      (∀ r ∈ xs, r.dep ≠ d) →
      (tagGroups xs g prev).filter (dryKeyPred d y) = [] := by
  intro xs
  induction xs with
  | nil => intro g prev _; rfl
  | cons x xs ih =>
    intro g prev h
    have hxd : x.dep ≠ d := h x (List.mem_cons_self x xs)
    rw [show tagGroups (x :: xs) g prev
        = (x, tagStep x g prev)
          :: tagGroups xs (tagStep x g prev) (some (x.dep, isDryR x)) from rfl]
    rw [List.filter_cons]
    have hpred : dryKeyPred d y (x, tagStep x g prev) = false := by
      simp [dryKeyPred, hxd]
    rw [if_neg (by simp [hpred])]
    exact ih _ _ (fun r hr => h r (List.mem_cons_of_mem x hr))

theorem tagGroups_filter_outside (d : String) (y : Int) (rs : List Rec)
    (h : ∀ r ∈ rs, r.dep = d ∧ r.year = y) (g : Nat) (prev : Option (String × Bool))
    (hprev : ∀ b0 : Bool, prev ≠ some (d, b0)) :
    ∃ g2, (tagGroups rs g prev).filter (dryKeyPred d y) = attachGid false g2 rs := by
  cases rs with
  | nil => exact ⟨g, rfl⟩
  | cons r rest =>
    obtain ⟨hdep, hyear⟩ := h r (List.mem_cons_self r rest)
    have hrest : ∀ r2 ∈ rest, r2.dep = d ∧ r2.year = y :=
      fun r2 hr2 => h r2 (List.mem_cons_of_mem r hr2)
    have hstep : tagStep r g prev = g + 1 := by
      unfold tagStep
      rcases prev with _ | ⟨d0, b0⟩
      · rfl
      · by_cases hd0 : r.dep = d0
        · exact absurd (by rw [hd0.symm.trans hdep]) (hprev b0)
        · simp [hd0]
    rw [show tagGroups (r :: rest) g prev
        = (r, tagStep r g prev)
          :: tagGroups rest (tagStep r g prev) (some (r.dep, isDryR r)) from rfl]
    rw [hstep, List.filter_cons]
    cases hdr : isDryR r with
    | true =>
      have hpred : dryKeyPred d y (r, g + 1) = true := by
        simp [dryKeyPred, hdr, hdep, hyear]
      rw [if_pos hpred, hdep, tagGroups_filter_eq_attachGid d y rest hrest (g + 1) true]
      exact ⟨g, (attachGid_cons_dry_false hdr g rest).symm⟩
    | false =>
      have hpred : dryKeyPred d y (r, g + 1) = false := by
        simp [dryKeyPred, hdr]
      rw [if_neg (by simp [hpred]), hdep,
        tagGroups_filter_eq_attachGid d y rest hrest (g + 1) false]
      exact ⟨g + 1, (attachGid_cons_wet_false hdr (g + 1) rest).symm⟩

/- ------------------------------------------------------------------ -/
/- Lemmas: a sorted frame keeps each department contiguous             -/
/- ------------------------------------------------------------------ -/

theorem sorted_filter_contig (d : String) :
    ∀ l : List Rec, l.Pairwise recLe →
      ∃ A B, l = A ++ l.filter (fun r => r.dep == d) ++ B ∧
        (∀ r ∈ A, r.dep ≠ d) ∧ (∀ r ∈ B, r.dep ≠ d) := by
  intro l
  induction l with
  | nil => exact fun _ => ⟨[], [], rfl, by simp, by simp⟩
  | cons r t ih =>
    intro hp
    obtain ⟨A, B, heq, hA, hB⟩ := ih hp.of_cons
    by_cases hdep : r.dep = d
    · have hfil : (r :: t).filter (fun r => r.dep == d)
          = r :: t.filter (fun r => r.dep == d) := by
        simp [List.filter_cons, hdep]
      cases hft : t.filter (fun r => r.dep == d) with
      | nil =>
        have hBt : ∀ x ∈ t, x.dep ≠ d := by
          intro x hx hxd
          have hx2 : x ∈ t.filter (fun r => r.dep == d) :=
            List.mem_filter.mpr ⟨hx, by simp [hxd]⟩
          rw [hft] at hx2
          simp at hx2
        exact ⟨[], t, by simp [hfil, hft], by simp, hBt⟩
      | cons f fs =>
        have hfmem : f ∈ t.filter (fun r => r.dep == d) := by
          rw [hft]; exact List.mem_cons_self f fs
        have hfd : f.dep = d := by simpa using (List.mem_filter.mp hfmem).2
        cases A with
        | nil =>
          refine ⟨[], B, ?_, by simp, hB⟩
          rw [hfil]
          simp only [List.nil_append] at heq
          rw [List.nil_append, List.cons_append, ← heq]
        | cons a as =>
          exfalso
          have haA : a ∈ a :: as := List.mem_cons_self a as
          have had : a.dep ≠ d := hA a haA
          have haT : a ∈ t := by
            rw [heq]; exact List.mem_append_left _ (List.mem_append_left _ haA)
          have hpt : t.Pairwise recLe := hp.of_cons
          rw [heq] at hpt
          have hpt2 := (List.pairwise_append.mp hpt).1
          have h1 := (List.pairwise_append.mp hpt2).2.2
          have haf : recLe a f := h1 a haA f hfmem
          have hra : recLe r a := List.rel_of_pairwise_cons hp haT
          have h2 : strLtB d a.dep = true := by
            rcases hra with hlt | ⟨he, _⟩
            · rw [hdep] at hlt; exact hlt
            · exact absurd (hdep ▸ he.symm) had
          have h3 : strLtB a.dep d = true := by
            rcases haf with hlt | ⟨he, _⟩
            · rw [hfd] at hlt; exact hlt
            · exact absurd (hfd ▸ he) had
          have h4 := strLtB_trans h2 h3
          rw [strLtB_irrefl] at h4
          exact Bool.false_ne_true h4
    · have hfil : (r :: t).filter (fun r => r.dep == d)
          = t.filter (fun r => r.dep == d) := by
        simp [List.filter_cons, hdep]
      refine ⟨r :: A, B, ?_, ?_, hB⟩
      · rw [hfil, List.cons_append, List.cons_append, ← heq]
      · intro x hx
        rcases List.mem_cons.mp hx with rfl | hx2
        · exact hdep
        · exact hA x hx2

/- ------------------------------------------------------------------ -/
/- Main correspondence for the dry-spell detector                      -/
/- ------------------------------------------------------------------ -/

theorem dryTaggedRuns_eq_runLengths (climate : List Rec) (d : String) (y : Int)
    (ps : List Rat)
    (hyear : ∀ r ∈ climate, r.dep = d → r.year = y)
    (hser : ((sortClimate climate).filter (fun r => r.dep == d)).map (fun r => r.precip)
      = ps) :
    dryTaggedRuns climate d y = dryRunLengths ps := by
  have hpw := pairwise_sortClimate climate
  obtain ⟨A, B, hsplit, hA, hB⟩ := sorted_filter_contig d (sortClimate climate) hpw
  have hFprop : ∀ r ∈ (sortClimate climate).filter (fun r => r.dep == d),
      r.dep = d ∧ r.year = y := by
    intro r hr
    have h1 : r.dep = d := by simpa using (List.mem_filter.mp hr).2
    have h2 : r ∈ climate :=
      (perm_sortClimate climate).mem_iff.mp (List.mem_filter.mp hr).1
    exact ⟨h1, hyear r h2 h1⟩
  unfold dryTaggedRuns
  rw [hsplit, List.append_assoc]
  obtain ⟨g1, p1, he1, hp1⟩ :=
    tagGroups_append A ((sortClimate climate).filter (fun r => r.dep == d) ++ B) 0 none
  rw [he1, List.filter_append, tagGroups_filter_ne d y A 0 none hA]
  obtain ⟨g2, p2, he2, hp2⟩ :=
    tagGroups_append ((sortClimate climate).filter (fun r => r.dep == d)) B g1 p1
  rw [he2, List.filter_append, tagGroups_filter_ne d y B g2 p2 hB]
  have hp1ne : ∀ b0 : Bool, p1 ≠ some (d, b0) := by
    rcases hp1 with ⟨_, rfl⟩ | ⟨x, hx, rfl⟩
    · intro b0 h; exact Option.noConfusion h
    · intro b0 h
      have hxd : x.dep = d := by
        have := Option.some.inj h
        exact congrArg Prod.fst this
      exact hA x hx hxd
  obtain ⟨g3, he3⟩ :=
    tagGroups_filter_outside d y ((sortClimate climate).filter (fun r => r.dep == d))
      hFprop g1 p1 hp1ne
  rw [he3, List.nil_append, List.append_nil, gidLens_attachGid, hser]

theorem le_foldr_max : ∀ (L : List Nat), ∀ x ∈ L, x ≤ L.foldr max 0 := by
  intro L
  induction L with
  | nil => intro x hx; simp at hx
  | cons a t ih =>
    intro x hx
    rcases List.mem_cons.mp hx with rfl | hx2
    · exact le_max_left _ _
    · exact le_trans (ih x hx2) (le_max_right _ _)

/- ------------------------------------------------------------------ -/
/- Claim theorems                                                      -/
/- ------------------------------------------------------------------ -/

/-- C1: for a department whose daily series in one year is a run of
consecutive calendar days, the dry_periods output row of that
(department, year) carries dry_periods_count equal to the number of
maximal dry runs of length at least 7 and max_dry_spell_days equal to
the longest run length; in particular a series whose dry days form one
maximal run of exactly 7 days gives (1, 7), one of exactly 6 days gives
(0, 6), and a series with no dry day gives max_dry_spell_days 0. -/
theorem c1_dry_spell_boundary (climate : List Rec) (d : String) (y : Int) (ps : List Rat)
    (hyear : ∀ r ∈ climate, r.dep = d → r.year = y)
    (hser : ((sortClimate climate).filter (fun r => r.dep == d)).map (fun r => r.precip)
      = ps)
    (_hdates : consecDays
      (((sortClimate climate).filter (fun r => r.dep == d)).map (fun r => r.time)) = true) :
    ∀ row ∈ dry_periods climate MIN_DRY_SPELL_DAYS, row.dep = d → row.year = y →
      row.dry_periods_count = (dryRunLengths ps).countP (fun n => 7 ≤ n) ∧
      row.max_dry_spell_days = (dryRunLengths ps).foldr max 0 ∧
      (dryRunLengths ps = [7] → row.dry_periods_count = 1 ∧ row.max_dry_spell_days = 7) ∧
      (dryRunLengths ps = [6] → row.dry_periods_count = 0 ∧ row.max_dry_spell_days = 6) ∧
      (dryRunLengths ps = [] → row.max_dry_spell_days = 0) := by
  intro row hrow hd hy
  obtain ⟨k, hk, rfl⟩ := List.mem_map.mp hrow
  simp only at hd hy
  have hmain : dryTaggedRuns climate k.1 k.2 = dryRunLengths ps := by
    rw [hd, hy]
    exact dryTaggedRuns_eq_runLengths climate d y ps hyear hser
  refine ⟨by simp only [hmain]; rfl, by simp only [hmain], ?_, ?_, ?_⟩
  · intro h7
    simp only [hmain, h7]
    exact ⟨by decide, by decide⟩
  · intro h6
    simp only [hmain, h6]
    exact ⟨by decide, by decide⟩
  · intro h0
    simp only [hmain, h0]
    rfl

/-- Witness for C1 at a concrete input: one department with exactly
seven consecutive dry days in one year, where the extractor outputs
dry_periods_count 1 and max_dry_spell_days 7. -/
theorem c1_dry_spell_boundary_witness :
    (({ dep := "a", year := 2000, dry_periods_count := 1, max_dry_spell_days := 7 } : DryRow)
        ∈ dry_periods c1wClimate MIN_DRY_SPELL_DAYS) ∧
    (1 : Nat) = (dryRunLengths [0, 0, 0, 0, 0, 0, 0]).countP (fun n => 7 ≤ n) ∧
    (7 : Nat) = (dryRunLengths [0, 0, 0, 0, 0, 0, 0]).foldr max 0 := by
  have h := c1_dry_spell_boundary c1wClimate "a" 2000 [0, 0, 0, 0, 0, 0, 0]
    (by decide) (by decide) (by decide)
  have hmem :
      ({ dep := "a", year := 2000, dry_periods_count := 1, max_dry_spell_days := 7 } : DryRow)
        ∈ dry_periods c1wClimate MIN_DRY_SPELL_DAYS := by decide
  have h2 := h _ hmem rfl rfl
  exact ⟨hmem, h2.1, h2.2.1⟩

/-- C2 counterexample: two dry days of the same department whose dates
are zero and five, hence not consecutive calendar days, are placed in
the same run: the run-length list of the pair is [2], not the [1, 1]
that the claimed date-gap split would produce. -/
theorem c2_gap_counterexample :
    c2gapClimate.map (fun r => r.time.day) = [0, 5] ∧
    (0 : Nat) + 1 ≠ 5 ∧
    (∀ r ∈ c2gapClimate, isDryR r = true) ∧
    dryTaggedRuns c2gapClimate "a" 2000 = [2] ∧
    dryTaggedRuns c2gapClimate "a" 2000 ≠ [1, 1] := by decide

/-- C2 amended: the detector groups dry days by adjacency in the
department-sorted series only; the run-length list of a department/year
equals the maximal-block decomposition of its precipitation sequence
regardless of the date values, so a calendar-date gap between adjacent
dry rows does not end a run. -/
theorem c2_series_runs_ignore_date_gaps (climate : List Rec) (d : String) (y : Int)
    (ps : List Rat)
    (hyear : ∀ r ∈ climate, r.dep = d → r.year = y)
    (hser : ((sortClimate climate).filter (fun r => r.dep == d)).map (fun r => r.precip)
      = ps) :
    dryTaggedRuns climate d y = dryRunLengths ps :=
  dryTaggedRuns_eq_runLengths climate d y ps hyear hser

/-- Witness for the amended C2 at the gap input: the two gap-separated
dry days produce the same run lengths as the gap-free two-value
precipitation series. -/
theorem c2_series_runs_ignore_date_gaps_witness :
    dryTaggedRuns c2gapClimate "a" 2000 = dryRunLengths [0, 0] :=
  c2_series_runs_ignore_date_gaps c2gapClimate "a" 2000 [0, 0] (by decide) (by decide)

/-- C10: in every dry_periods output row, a positive dry_periods_count
implies max_dry_spell_days of at least 7, since only runs of length at
least MIN_DRY_SPELL_DAYS are counted and the maximum ranges over the
same run lengths. -/
theorem c10_count_pos_implies_max_ge (climate : List Rec) :
    ∀ row ∈ dry_periods climate MIN_DRY_SPELL_DAYS,
      0 < row.dry_periods_count → 7 ≤ row.max_dry_spell_days := by
  intro row hrow hpos
  obtain ⟨k, hk, rfl⟩ := List.mem_map.mp hrow
  simp only at hpos ⊢
  obtain ⟨x, hx, hx7⟩ := List.countP_pos_iff.mp hpos
  have h7 : MIN_DRY_SPELL_DAYS ≤ x := by simpa using hx7
  exact le_trans h7 (le_foldr_max _ x hx)

/-- Witness for C10 at a concrete input with one eight-day dry run:
dry_periods_count is positive and max_dry_spell_days is at least 7. -/
theorem c10_count_pos_implies_max_ge_witness :
    7 ≤ ({ dep := "a", year := 2000, dry_periods_count := 1,
            max_dry_spell_days := 8 } : DryRow).max_dry_spell_days :=
  c10_count_pos_implies_max_ge c10wClimate _ (by decide) (by decide)

/-- C3: every row of the winter-precipitation-lag output sums exactly
the precipitation of the six winter months attributed to its growing
year: days of months 9 to 12 of the previous calendar year and days of
months 1 to 2 of the same year; and a day of months 3 to 8 is not a
winter row at all, so it contributes to no output row. -/
theorem c3_winter_attribution (climate : List Rec) :
    (∀ row ∈ precipitation_lag climate,
        row.winter_precip_total = winterSpecTotal climate row.dep row.year) ∧
    (∀ r ∈ climate, 3 ≤ r.time.month → r.time.month ≤ 8 → r ∉ winterRows climate) := by
  constructor
  · intro row hrow
    obtain ⟨k, hk, rfl⟩ := List.mem_map.mp hrow
    simp only
    unfold winterSpecTotal winterRows
    rw [List.filter_filter]
    congr 1
    refine congrArg (List.map (fun r : Rec => r.precip)) ?_
    apply List.filter_congr
    intro r _
    rw [Bool.eq_iff_iff]
    simp only [Bool.and_eq_true, beq_iff_eq, decide_eq_true_eq]
    unfold growingYear WINTER_START_MONTH WINTER_MONTHS
    constructor
    · rintro ⟨⟨hdep, hgy⟩, hmem⟩
      refine ⟨hdep, ?_⟩
      simp only [List.mem_cons, List.not_mem_nil, or_false] at hmem
      rcases hmem with h | h | h | h | h | h
      all_goals rw [h] at hgy ⊢
      · exact Or.inl ⟨by omega, by omega, by simpa using hgy⟩
      · exact Or.inl ⟨by omega, by omega, by simpa using hgy⟩
      · exact Or.inl ⟨by omega, by omega, by simpa using hgy⟩
      · exact Or.inl ⟨by omega, by omega, by simpa using hgy⟩
      · refine Or.inr ⟨Or.inl rfl, ?_⟩
        rw [if_neg (by omega)] at hgy
        exact hgy
      · refine Or.inr ⟨Or.inr rfl, ?_⟩
        rw [if_neg (by omega)] at hgy
        exact hgy
    · rintro ⟨hdep, hcase⟩
      rcases hcase with ⟨h9, h12, hy⟩ | ⟨hm, hy⟩
      · refine ⟨⟨hdep, by rw [if_pos (by omega)]; exact hy⟩, ?_⟩
        simp only [List.mem_cons, List.not_mem_nil, or_false]
        omega
      · refine ⟨⟨hdep, by rw [if_neg (by omega)]; exact hy⟩, ?_⟩
        simp only [List.mem_cons, List.not_mem_nil, or_false]
        omega
  · intro r _ h3 h8 hmem
    have h2 := (List.mem_filter.mp hmem).2
    simp only [decide_eq_true_eq, WINTER_MONTHS, List.mem_cons, List.not_mem_nil,
      or_false] at h2
    omega

/-- Witness for C3 at a concrete input: a December day of year 2000 and
a January day of year 2001 both feed the growing-year-2001 total, and a
month-4 day is excluded from the winter selection. -/
theorem c3_winter_attribution_witness :
    c3wRow.winter_precip_total = winterSpecTotal c3wClimate c3wRow.dep c3wRow.year ∧
    mkRec "a" 2000 100 4 280 5 ∉ winterRows [mkRec "a" 2000 100 4 280 5] := by
  constructor
  · refine (c3_winter_attribution c3wClimate).1 c3wRow ?_
    rw [show precipitation_lag c3wClimate = [c3wRow] from rfl]
    exact List.mem_singleton_self _
  · exact (c3_winter_attribution [mkRec "a" 2000 100 4 280 5]).2 _
      (List.mem_singleton_self _) (by decide) (by decide)

theorem countP_partition {α : Type} (key p q : α → Bool)
    (h : ∀ a, key a = true → (p a = true ↔ q a = false)) :
    ∀ l : List α,
      l.countP (fun a => key a && p a) + l.countP (fun a => key a && q a)
        = l.countP key := by
  intro l
  induction l with
  | nil => rfl
  | cons a t ih =>
    simp only [List.countP_cons]
    cases hk : key a with
    | false => simp [hk] <;> omega
    | true =>
      cases hpa : p a with
      | true =>
        have hqa : q a = false := (h a hk).mp hpa
        simp [hk, hpa, hqa] <;> omega
      | false =>
        have hqa : q a = true := by
          cases hq2 : q a with
          | true => rfl
          | false => exact absurd ((h a hk).mpr hq2) (by simp [hpa])
        simp [hk, hpa, hqa] <;> omega

/-- C6: every extreme-day output row counts exactly the days of its
(department, year) on the strict side of each threshold: temp_max
strictly below 273.15 K for freezes, strictly above 303.15 K for heat,
precipitation strictly above 20 mm for heavy rain; and the freeze count
plus the count of days at or above the freeze threshold exhausts the
days of the key, so a day exactly at a threshold is never counted. The
counts are Nat values, hence non-negative integers, and single days
count with no minimum-run requirement. -/
theorem c6_extreme_strict (climate : List Rec) :
    ∀ row ∈ extreme_temperatures_and_rain climate,
      row.freeze_days_count
          = climate.countP (fun r => r.dep == row.dep && r.year == row.year &&
              decide (r.temp_max < mkRat 27315 100)) ∧
      row.heat_days_count
          = climate.countP (fun r => r.dep == row.dep && r.year == row.year &&
              decide (mkRat 30315 100 < r.temp_max)) ∧
      row.heavy_rain_days_count
          = climate.countP (fun r => r.dep == row.dep && r.year == row.year &&
              decide (20 < r.precip)) ∧
      climate.countP (fun r => r.dep == row.dep && r.year == row.year &&
          decide (r.temp_max < mkRat 27315 100))
        + climate.countP (fun r => r.dep == row.dep && r.year == row.year &&
          decide (mkRat 27315 100 ≤ r.temp_max))
        = climate.countP (fun r => r.dep == row.dep && r.year == row.year) := by
  intro row hrow
  obtain ⟨k, hk, rfl⟩ := List.mem_map.mp hrow
  refine ⟨?_, ?_, ?_, ?_⟩
  · exact (perm_sortClimate climate).countP_eq _
  · exact (perm_sortClimate climate).countP_eq _
  · exact (perm_sortClimate climate).countP_eq _
  · exact countP_partition _ _ _
      (fun r _ => by rw [decide_eq_true_eq, decide_eq_false_iff_not]; exact ⟨not_le.mpr, not_le.mp⟩)
      climate

/-- Witness for C6 at a concrete input: a day exactly at the freeze
threshold is not counted, one strictly below counts as a freeze, one
strictly above the heat threshold with 21 mm rain counts for heat and
heavy rain. -/
theorem c6_extreme_strict_witness :
    (({ dep := "a", year := 2000, freeze_days_count := 1, heat_days_count := 1,
        heavy_rain_days_count := 1 } : ExtRow) ∈ extreme_temperatures_and_rain c6wClimate) ∧
    (1 : Nat) = c6wClimate.countP (fun r => r.dep == "a" && r.year == 2000 &&
      decide (r.temp_max < mkRat 27315 100)) := by
  have hmem : (⟨"a", 2000, 1, 1, 1⟩ : ExtRow) ∈ extreme_temperatures_and_rain c6wClimate := by
    decide
  have h := c6_extreme_strict c6wClimate _ hmem
  exact ⟨hmem, h.1⟩

/-- C4: for any yield table, feature table and threshold year, every
joined row with year at most the threshold is in the training set and
every row with year above it is in the validation set; the two sets are
disjoint, and per-row multiplicities of training and validation add up
to those of the joined table, so each joined row lands in exactly one
partition. -/
theorem c4_split_partition (ys : List YieldRow) (cs : List FeatRow) (T : Int) :
    (∀ p ∈ (create_gold_datasets ys cs T).1, p.1.year ≤ T) ∧
    (∀ p ∈ (create_gold_datasets ys cs T).2.1, T < p.1.year) ∧
    (∀ p ∈ innerJoinYieldClimate ys (cs.filter (fun c => c.scen == SCENARIO_HISTORICAL)),
        (p.1.year ≤ T → p ∈ (create_gold_datasets ys cs T).1) ∧
        (T < p.1.year → p ∈ (create_gold_datasets ys cs T).2.1)) ∧
    (∀ p : YieldRow × FeatRow, ¬(p ∈ (create_gold_datasets ys cs T).1 ∧
        p ∈ (create_gold_datasets ys cs T).2.1)) ∧
    (∀ p : YieldRow × FeatRow,
        ((create_gold_datasets ys cs T).1.count p
          + (create_gold_datasets ys cs T).2.1.count p)
        = (innerJoinYieldClimate ys
            (cs.filter (fun c => c.scen == SCENARIO_HISTORICAL))).count p) := by
  have htr : (create_gold_datasets ys cs T).1
      = (innerJoinYieldClimate ys (cs.filter (fun c => c.scen == SCENARIO_HISTORICAL))).filter
          (fun p => decide (p.1.year ≤ T)) := rfl
  have hva : (create_gold_datasets ys cs T).2.1
      = (innerJoinYieldClimate ys (cs.filter (fun c => c.scen == SCENARIO_HISTORICAL))).filter
          (fun p => decide (T < p.1.year)) := rfl
  refine ⟨?_, ?_, ?_, ?_, ?_⟩
  · intro p hp
    rw [htr] at hp
    simpa using (List.mem_filter.mp hp).2
  · intro p hp
    rw [hva] at hp
    simpa using (List.mem_filter.mp hp).2
  · intro p hp
    constructor
    · intro hle
      rw [htr]
      exact List.mem_filter.mpr ⟨hp, by simpa using hle⟩
    · intro hlt
      rw [hva]
      exact List.mem_filter.mpr ⟨hp, by simpa using hlt⟩
  · rintro p ⟨h1, h2⟩
    rw [htr] at h1
    rw [hva] at h2
    have ha := (List.mem_filter.mp h1).2
    have hb := (List.mem_filter.mp h2).2
    simp only [decide_eq_true_eq] at ha hb
    omega
  · intro p
    rw [htr, hva]
    rw [List.count_eq_countP, List.count_eq_countP, List.count_eq_countP]
    rw [List.countP_filter, List.countP_filter]
    by_cases hy : p.1.year ≤ T
    · have h1 : ∀ x : YieldRow × FeatRow,
          (x == p && decide (x.1.year ≤ T)) = (x == p) := by
        intro x
        by_cases hx : x = p
        · subst hx; simp [hy]
        · simp [hx]
      have h2 : ∀ x : YieldRow × FeatRow,
          (x == p && decide (T < x.1.year)) = false := by
        intro x
        by_cases hx : x = p
        · subst hx; simp; omega
        · simp [hx]
      have hc1 : List.countP (fun x => x == p && decide (x.1.year ≤ T))
            (innerJoinYieldClimate ys (cs.filter (fun c => c.scen == SCENARIO_HISTORICAL)))
          = List.countP (fun x => x == p)
            (innerJoinYieldClimate ys (cs.filter (fun c => c.scen == SCENARIO_HISTORICAL))) :=
        List.countP_congr (fun x _ => by rw [h1 x])
      have hc2 : List.countP (fun x => x == p && decide (T < x.1.year))
            (innerJoinYieldClimate ys (cs.filter (fun c => c.scen == SCENARIO_HISTORICAL)))
          = List.countP (fun _ => false)
            (innerJoinYieldClimate ys (cs.filter (fun c => c.scen == SCENARIO_HISTORICAL))) :=
        List.countP_congr (fun x _ => by rw [h2 x])
      rw [hc1, hc2]
      simp
    · have h1 : ∀ x : YieldRow × FeatRow,
          (x == p && decide (x.1.year ≤ T)) = false := by
        intro x
        by_cases hx : x = p
        · subst hx; simp [hy]
        · simp [hx]
      have h2 : ∀ x : YieldRow × FeatRow,
          (x == p && decide (T < x.1.year)) = (x == p) := by
        intro x
        by_cases hx : x = p
        · subst hx; simp; omega
        · simp [hx]
      have hc1 : List.countP (fun x => x == p && decide (x.1.year ≤ T))
            (innerJoinYieldClimate ys (cs.filter (fun c => c.scen == SCENARIO_HISTORICAL)))
          = List.countP (fun _ => false)
            (innerJoinYieldClimate ys (cs.filter (fun c => c.scen == SCENARIO_HISTORICAL))) :=
        List.countP_congr (fun x _ => by rw [h1 x])
      have hc2 : List.countP (fun x => x == p && decide (T < x.1.year))
            (innerJoinYieldClimate ys (cs.filter (fun c => c.scen == SCENARIO_HISTORICAL)))
          = List.countP (fun x => x == p)
            (innerJoinYieldClimate ys (cs.filter (fun c => c.scen == SCENARIO_HISTORICAL))) :=
        List.countP_congr (fun x _ => by rw [h2 x])
      rw [hc1, hc2]
      simp

/-- Witness for C4 at a concrete input: with threshold 2013, the joined
year-2000 row lands in training, the joined year-2014 row lands in
validation, and the training row is not simultaneously in both
partitions. -/
theorem c4_split_partition_witness :
    c4wTrainPair ∈ (create_gold_datasets c4wYield c4wFeat 2013).1 ∧
    c4wValPair ∈ (create_gold_datasets c4wYield c4wFeat 2013).2.1 ∧
    ¬(c4wTrainPair ∈ (create_gold_datasets c4wYield c4wFeat 2013).1 ∧
      c4wTrainPair ∈ (create_gold_datasets c4wYield c4wFeat 2013).2.1) := by
  have h := c4_split_partition c4wYield c4wFeat 2013
  exact ⟨(h.2.2.1 c4wTrainPair (by decide)).1 (by decide),
    (h.2.2.1 c4wValPair (by decide)).2 (by decide),
    h.2.2.2.1 c4wTrainPair⟩

theorem find_map_of_key {β : Type} (keys : List (String × Int)) (f : String × Int → β)
    (dOf : β → String) (yOf : β → Int)
    (hkey : ∀ k, dOf (f k) = k.1 ∧ yOf (f k) = k.2)
    (d : String) (y : Int) (hmem : (d, y) ∈ keys) :
    (keys.map f).find? (fun q => dOf q == d && yOf q == y) = some (f (d, y)) := by
  induction keys with
  | nil => simp at hmem
  | cons k0 rest ih =>
    rw [List.map_cons]
    by_cases hk0 : k0 = (d, y)
    · subst hk0
      apply List.find?_cons_of_pos
      simp only [Bool.and_eq_true, beq_iff_eq]
      exact ⟨(hkey (d, y)).1, (hkey (d, y)).2⟩
    · rw [List.find?_cons_of_neg]
      · apply ih
        rcases List.mem_cons.mp hmem with h | h
        · exact absurd h.symm hk0
        · exact h
      · simp only [Bool.and_eq_true, beq_iff_eq, (hkey k0).1, (hkey k0).2, not_and]
        intro hd hy
        exact hk0 (Prod.ext_iff.mpr ⟨hd, hy⟩)

theorem length_filter_map_key {β : Type} (f : String × Int → β)
    (dOf : β → String) (yOf : β → Int)
    (hkey : ∀ k, dOf (f k) = k.1 ∧ yOf (f k) = k.2)
    (d : String) (y : Int) :
    ∀ keys : List (String × Int),
      ((keys.map f).filter (fun q => dOf q == d && yOf q == y)).length
        = (keys.filter (fun k => decide (k = (d, y)))).length := by
  intro keys
  induction keys with
  | nil => rfl
  | cons k0 rest ih =>
    rw [List.map_cons, List.filter_cons, List.filter_cons]
    have he : (dOf (f k0) == d && yOf (f k0) == y) = decide (k0 = (d, y)) := by
      rw [(hkey k0).1, (hkey k0).2, Bool.eq_iff_iff]
      simp [Prod.ext_iff]
    rw [he]
    cases hdec : decide (k0 = (d, y)) with
    | true => simp [ih]
    | false => simp [ih]

theorem length_filter_eq_of_nodup {α : Type} [DecidableEq α] :
    ∀ (keys : List α), keys.Nodup → ∀ a : α,
      (keys.filter (fun k => decide (k = a))).length = if a ∈ keys then 1 else 0 := by
  intro keys
  induction keys with
  | nil => intro _ a; simp
  | cons k0 rest ih =>
    intro hnd a
    rw [List.filter_cons]
    by_cases hk : k0 = a
    · subst hk
      rw [if_pos (by simp)]
      have hct : rest.filter (fun k => decide (k = k0)) = [] := by
        rw [List.filter_eq_nil_iff]
        intro b hb
        simp only [decide_eq_true_eq]
        intro he
        subst he
        exact (List.nodup_cons.mp hnd).1 hb
      rw [hct, if_pos (List.mem_cons_self k0 rest)]
      rfl
    · rw [if_neg (by simpa using hk)]
      rw [ih (List.nodup_cons.mp hnd).2 a]
      by_cases hmem : a ∈ rest
      · rw [if_pos hmem, if_pos (List.mem_cons_of_mem _ hmem)]
      · rw [if_neg hmem, if_neg (by
          intro hcon
          rcases List.mem_cons.mp hcon with h | h
          · exact hk h.symm
          · exact hmem h)]

/-- C5: for every scenario slice, the merged feature table has exactly
one row per distinct (department, year) pair of the slice; a pair whose
run-length list is empty carries the explicit values 0 for
dry_periods_count and max_dry_spell_days, not missing ones; and a pair
with no winter-month record attributed to its growing year has a missing
winter_precip_total, not 0. -/
theorem c5_feature_completeness (sname : String) (slice : List Rec) (d : String) (y : Int) :
    (((scenarioFeatures sname slice).filter (fun q => q.dep == d && q.year == y)).length
        = if ∃ r ∈ slice, r.dep = d ∧ r.year = y then 1 else 0) ∧
    (∀ row ∈ scenarioFeatures sname slice, row.dep = d → row.year = y →
        (dryTaggedRuns slice d y = [] →
          row.dry_periods_count = some 0 ∧ row.max_dry_spell_days = some 0) ∧
        ((∀ r ∈ slice, ¬(r.time.month ∈ WINTER_MONTHS ∧ r.dep = d ∧ growingYear r = y)) →
          row.winter_precip_total = none)) := by
  constructor
  · unfold scenarioFeatures
    rw [length_filter_map_key _ (fun q : FeatRow => q.dep) (fun q : FeatRow => q.year)
      (fun k => ⟨rfl, rfl⟩) d y (deptYearPairs slice)]
    rw [length_filter_eq_of_nodup (deptYearPairs slice)
      (show (deptYearPairs slice).Nodup from nodup_dedupF _) (d, y)]
    have hiff : ((d, y) ∈ deptYearPairs slice) ↔ (∃ r ∈ slice, r.dep = d ∧ r.year = y) := by
      unfold deptYearPairs
      rw [mem_dedupF, List.mem_map]
      constructor
      · rintro ⟨r, hr, he⟩
        have h2 := Prod.ext_iff.mp he
        exact ⟨r, hr, h2.1, h2.2⟩
      · rintro ⟨r, hr, h1, h2⟩
        exact ⟨r, hr, by rw [h1, h2]⟩
    simp only [hiff]
  · intro row hrow hd hy
    obtain ⟨k, hk, rfl⟩ := List.mem_map.mp hrow
    simp only at hd hy
    have hkmem : (d, y) ∈ deptYearPairs slice := by
      rw [← hd, ← hy, Prod.mk.eta]
      exact hk
    constructor
    · intro hempty
      have hfind : findDryRow (dry_periods slice MIN_DRY_SPELL_DAYS) d y
          = some (⟨d, y, (dryTaggedRuns slice d y).countP (fun n => MIN_DRY_SPELL_DAYS ≤ n),
              (dryTaggedRuns slice d y).foldr max 0⟩ : DryRow) := by
        unfold findDryRow dry_periods
        exact find_map_of_key (deptYearPairs slice) _ (fun q : DryRow => q.dep)
          (fun q : DryRow => q.year) (fun k2 => ⟨rfl, rfl⟩) d y hkmem
      simp only [hd, hy, hfind, hempty]
      exact ⟨rfl, rfl⟩
    · intro hnowinter
      have hfind : findLagRow (precipitation_lag slice) d y = none := by
        unfold findLagRow
        rw [List.find?_eq_none]
        intro lagrow hlag
        obtain ⟨k2, hk2, rfl⟩ := List.mem_map.mp hlag
        simp only [Bool.and_eq_true, beq_iff_eq, not_and]
        intro hd2 hy2
        have hk2m : k2 ∈ (winterRows slice).map (fun r => (r.dep, growingYear r)) :=
          mem_dedupF.mp hk2
        obtain ⟨r, hr, he⟩ := List.mem_map.mp hk2m
        have hrs : r ∈ slice := (List.mem_filter.mp hr).1
        have hrw : r.time.month ∈ WINTER_MONTHS := by
          simpa using (List.mem_filter.mp hr).2
        apply hnowinter r hrs
        refine ⟨hrw, ?_, ?_⟩
        · rw [← he] at hd2
          exact hd2
        · rw [← he] at hy2
          exact hy2
      simp only [hd, hy, hfind]
      rfl

/-- Witness for C5 at a concrete slice with no dry day and no winter
row: the merged row exists, carries explicit zeros for the dry-spell
columns and a missing winter total. -/
theorem c5_feature_completeness_witness :
    c5wRow ∈ scenarioFeatures "historical" c5wSlice ∧
    (c5wRow.dry_periods_count = some 0 ∧ c5wRow.max_dry_spell_days = some 0) ∧
    c5wRow.winter_precip_total = none := by
  have hmem : c5wRow ∈ scenarioFeatures "historical" c5wSlice := by decide
  have h := (c5_feature_completeness "historical" c5wSlice "a" 2000).2 c5wRow hmem rfl rfl
  exact ⟨hmem, h.1 (by decide), h.2 (by decide)⟩

/-- C7: with a non-empty raw yield table and a raw climate table holding
no historical-scenario row, the yield-cleaning path does not fail: the
historical department and year reference sets are empty, every yield row
is filtered out, and the empty table is returned. -/
theorem c7_empty_historical_propagates (ys : List RawYield) (cl : List RawClimate)
    (hys : ys ≠ []) (hcl : ∀ c ∈ cl, c.scen ≠ SCENARIO_HISTORICAL) :
    clean_bronze_yield ys cl = Except.ok [] := by
  have hhist : cl.filter (fun c => c.scen == SCENARIO_HISTORICAL) = [] := by
    rw [List.filter_eq_nil_iff]
    intro c hc
    simpa using hcl c hc
  simp only [clean_bronze_yield, hhist, List.map_nil]
  have h2 : ∀ r : RawYield, (([] : List String).contains r.dep.trim) = false := by
    intro r
    rfl
  rw [List.filter_congr (fun r _ => h2 r), List.filter_false, List.filter_nil,
    List.filter_nil, if_neg (by simpa using hys)]

/-- Witness for C7 at a concrete input: one present yield row and a
climate table holding only an ssp scenario row give the empty cleaned
table without an error. -/
theorem c7_empty_historical_propagates_witness :
    clean_bronze_yield c7wYield c7wClimate = Except.ok [] :=
  c7_empty_historical_propagates c7wYield c7wClimate (by decide) (by decide)

/-- C9: on an empty raw yield table the yield-cleaning path is not
total: the kept-rows percentage in the final log divides by the initial
row count, which is zero, so the function raises ZeroDivisionError
instead of returning an empty table. -/
theorem c9_empty_yield_division_error (cl : List RawClimate) :
    clean_bronze_yield [] cl = Except.error "ZeroDivisionError: division by zero" := rfl

/- ------------------------------------------------------------------ -/
/- C8: the label encoder                                               -/
/- ------------------------------------------------------------------ -/

theorem idxOf_mem : ∀ (cs : List String) (s : String), s ∈ cs →
    ∃ i, idxOf cs s = some i ∧ cs[i]? = some s := by
  intro cs
  induction cs with
  | nil => intro s hs; simp at hs
  | cons c rest ih =>
    intro s hs
    by_cases hc : c = s
    · exact ⟨0, by simp [idxOf, hc], by simp [hc]⟩
    · have hs2 : s ∈ rest := by
        rcases List.mem_cons.mp hs with h | h
        · exact absurd h.symm hc
        · exact h
      obtain ⟨i, hi, hg⟩ := ih s hs2
      exact ⟨i + 1, by simp [idxOf, hc, hi], by simpa using hg⟩

theorem idxOf_not_mem : ∀ (cs : List String) (s : String), s ∉ cs → idxOf cs s = none := by
  intro cs
  induction cs with
  | nil => intro s _; rfl
  | cons c rest ih =>
    intro s hs
    have hc : ¬c = s := fun h => hs (h ▸ List.mem_cons_self c rest)
    have hs2 : s ∉ rest := fun h => hs (List.mem_cons_of_mem c h)
    simp [idxOf, hc, ih s hs2]

theorem mem_leFit_classes (values : List String) (s : String) :
    s ∈ (leFit values).classes ↔ s ∈ values := by
  unfold leFit
  rw [(perm_sortLe strLe (dedupF values)).mem_iff, mem_dedupF]

/-- C8: the encoder fitted on the training and validation department
columns round-trips every department it saw (decoding the encoded value
returns the original name) and fails with the unseen-label error on any
department it did not see; inference receives this fitted encoder as an
argument and only applies it. -/
theorem c8_encoder_roundtrip (trainDeps testDeps : List String) (d : String) :
    (d ∈ trainDeps ++ testDeps →
      decodeEncode (load_training_encoder trainDeps testDeps) d = Except.ok d) ∧
    (d ∉ trainDeps ++ testDeps →
      leTransform (load_training_encoder trainDeps testDeps) d
        = Except.error "y contains previously unseen labels") := by
  constructor
  · intro hmem
    have hcl : d ∈ (load_training_encoder trainDeps testDeps).classes :=
      (mem_leFit_classes (trainDeps ++ testDeps) d).mpr hmem
    obtain ⟨i, hi, hg⟩ := idxOf_mem _ d hcl
    simp [decodeEncode, leTransform, leInverse, hi, hg]
  · intro hnot
    have hcl : d ∉ (load_training_encoder trainDeps testDeps).classes :=
      fun h => hnot ((mem_leFit_classes (trainDeps ++ testDeps) d).mp h)
    simp [leTransform, idxOf_not_mem _ d hcl]

/-- Witness for C8 at a concrete encoder fitted on three departments:
a seen department round-trips and an unseen one raises. -/
theorem c8_encoder_roundtrip_witness :
    decodeEncode (load_training_encoder ["x", "y"] ["z"]) "y" = Except.ok "y" ∧
    leTransform (load_training_encoder ["x", "y"] ["z"]) "w"
      = Except.error "y contains previously unseen labels" :=
  ⟨(c8_encoder_roundtrip ["x", "y"] ["z"] "y").1 (by decide),
   (c8_encoder_roundtrip ["x", "y"] ["z"] "w").2 (by decide)⟩

end Pipeline
